import Mathlib

/-!
# Verification of the finite-field / ECDSA / Script core

A shallow embedding, in Lean 4, of the Python modules `ecc.py`, `helper.py`,
`op.py` and `script.py` of the repository (an educational reimplementation of
the Bitcoin cryptographic and Script core), together with theorems settling
the specification claims about them.

Conventions of the embedding:

* Python `bytes` values become `List Nat` (each entry a byte value).
* Python integers become `Nat` or `Int`; `%` on `Int` is Euclidean remainder,
  which agrees with Python `%` for positive moduli.
* Python functions that can raise become `Except PyExc _`; an uncaught Python
  exception is the `Except.error` case.  Exception payloads (messages) are
  dropped; only the exception class is kept.
* Python lists and deques become `List _` in the same element order
  (index 0 first).  Helper functions mirror Python index semantics
  (negative indexing, `pop`, `insert`).
-/

/-- Python exception classes that the embedded code can raise.  Message
strings are not modelled. -/
inductive PyExc where
  /-- `TypeError`, e.g. domain mismatch in field or curve operations, or a
  call with the wrong number of arguments. -/
  | typeErr
  /-- `ValueError`, e.g. a field element out of range or a point not on the
  curve. -/
  | valueErr
  /-- `SyntaxError`, raised by the Script and signature deserializers. -/
  | synErr
  /-- `NotImplementedError`, raised by `op_checkmultisig`. -/
  | notImplErr
  /-- `NameError`, raised when a module-level name is not defined (as for
  `S256Point`, `Signature` and `LOGGER` inside `op.py`). -/
  | nameErr
  /-- `IndexError`, raised by out-of-range sequence indexing. -/
  | indexErr
  /-- `OverflowError`, raised by `int.to_bytes` when the value does not fit. -/
  | overflowErr
deriving DecidableEq, Repr

/-- A Python `bytes` value: a list of byte values. -/
abbrev Bytes := List Nat

deriving instance DecidableEq for Except

/-- Value of a byte list read as a little-endian base-256 integer; this is
Python `int.from_bytes(l, "little")`. -/
def valLE (l : Bytes) : Nat :=
  l.foldr (fun b acc => b + 256 * acc) 0

/-- Little-endian base-256 digits of `m`, embedding the loop
`while abs_num: result.append(abs_num & 0xff); abs_num >>= 8`
shared by `encode_num` (`op.py`) and `int.to_bytes` without a fixed width. -/
def natLE (m : Nat) : Bytes :=
  if m = 0 then [] else m % 256 :: natLE (m / 256)
decreasing_by exact Nat.div_lt_self (Nat.pos_of_ne_zero (by assumption)) (by omega)

/-- Python `i.to_bytes(len, "little")`, truncated to `len` bytes (the source
only calls it when the value fits). -/
def toBytesLE (len : Nat) (i : Nat) : Bytes :=
  match len with
  | 0 => []
  | k + 1 => i % 256 :: toBytesLE k (i / 256)

/-! ## `ecc.py`: finite-field elements -/

/-- The class `FinFieldElem` of `ecc.py`: attributes `num` and `prime`.
Records only the data; the invariant enforced by `__init__` is `FinFieldElem.Wf`. -/
structure FinFieldElem where
  num : Nat
  prime : Nat
deriving DecidableEq, Repr

/-- What `FinFieldElem.__init__` enforces (it raises `ValueError` otherwise):
`prime` is at least 3 and `0 <= num < prime`.  (`num >= 0` is automatic
since `num : Nat`.) -/
def FinFieldElem.Wf (a : FinFieldElem) : Prop :=
  3 ≤ a.prime ∧ a.num < a.prime

instance (a : FinFieldElem) : Decidable a.Wf := by
  unfold FinFieldElem.Wf; infer_instance

/-- A Python value compared against a `FinFieldElem` by `__eq__` / `__ne__`:
either another field element, or a value of a different class (here an int
or a bytes object stand in for the non-field values). -/
inductive PyVal where
  | fe (e : FinFieldElem)
  | pyInt (n : Int)
  | pyBytes (bs : Bytes)
deriving DecidableEq, Repr

/-- `FinFieldElem.__eq__`: `False` when `other` is not a `FinFieldElem`
(Python returns a boolean, never raises); otherwise both `num` and `prime`
must match. -/
def FinFieldElem.feq (a : FinFieldElem) (other : PyVal) : Bool :=
  match other with
  | .fe b => a.num == b.num && a.prime == b.prime
  | _ => false

/-- `FinFieldElem.__ne__` (defined separately in the source): `True` when
`other` is not a `FinFieldElem`; otherwise `num` or `prime` differ. -/
def FinFieldElem.fne (a : FinFieldElem) (other : PyVal) : Bool :=
  match other with
  | .fe b => a.num != b.num || a.prime != b.prime
  | _ => true

/-- `FinFieldElem.__add__`: raises `TypeError` unless `other` is an element
of the same field, else `(self.num + other.num) % self.prime`.  (Both
arguments being `FinFieldElem` here, only the prime check remains of
`type(other) is not self.__class__ or self.prime != other.prime`.) -/
def FinFieldElem.add (a b : FinFieldElem) : Except PyExc FinFieldElem :=
  if a.prime ≠ b.prime then .error .typeErr
  else .ok ⟨(a.num + b.num) % a.prime, a.prime⟩

/-- `FinFieldElem.__sub__`: raises `TypeError` on a domain mismatch, else
`(self.num - other.num) % self.prime` (Python `%` on a possibly negative
difference, hence the `Int` detour). -/
def FinFieldElem.sub (a b : FinFieldElem) : Except PyExc FinFieldElem :=
  if a.prime ≠ b.prime then .error .typeErr
  else .ok ⟨(((a.num : Int) - b.num) % (a.prime : Int)).toNat, a.prime⟩

/-- `FinFieldElem.__mul__`: raises `TypeError` on a domain mismatch, else
`(self.num * other.num) % self.prime`. -/
def FinFieldElem.mul (a b : FinFieldElem) : Except PyExc FinFieldElem :=
  if a.prime ≠ b.prime then .error .typeErr
  else .ok ⟨a.num * b.num % a.prime, a.prime⟩

/-- `FinFieldElem.__pow__` with integer exponent (possibly negative):
`n = exponent % (self.prime - 1)`, then `pow(self.num, n, self.prime)`.
Total: it raises nothing. -/
def FinFieldElem.pow (a : FinFieldElem) (exponent : Int) : FinFieldElem :=
  let n : Int := exponent % ((a.prime : Int) - 1)
  ⟨a.num ^ n.toNat % a.prime, a.prime⟩

/-- `FinFieldElem.__truediv__`: raises `TypeError` on a domain mismatch, else
`(self.num * pow(other.num, other.prime - 2, other.prime)) % self.prime`. -/
def FinFieldElem.truediv (a b : FinFieldElem) : Except PyExc FinFieldElem :=
  if a.prime ≠ b.prime then .error .typeErr
  else .ok ⟨a.num * (b.num ^ (b.prime - 2) % b.prime) % a.prime, a.prime⟩

/-- `FinFieldElem.__rmul__` (integer scalar times field element):
`(self.num * coefficient) % self.prime`; the scalar need not be in the
field and may be negative. -/
def FinFieldElem.rmul (a : FinFieldElem) (coefficient : Int) : FinFieldElem :=
  ⟨(((a.num : Int) * coefficient) % (a.prime : Int)).toNat, a.prime⟩

/-! ## `ecc.py`: elliptic-curve points -/

/-- The class `ECPoint` of `ecc.py`: coordinates `x`, `y` (the value `None`
marks the point at infinity) and curve constants `a`, `b`. -/
structure ECPoint where
  x : Option FinFieldElem
  y : Option FinFieldElem
  a : FinFieldElem
  b : FinFieldElem
deriving DecidableEq, Repr

/-- Coordinate comparison as Python evaluates `self.x == other.x`:
`None == None` is `True`; `None` against a field element falls back to
`FinFieldElem.__eq__`, which returns `False` for a non-`FinFieldElem`. -/
def optFeq (u v : Option FinFieldElem) : Bool :=
  match u, v with
  | none, none => true
  | some a, some b => a.feq (.fe b)
  | _, _ => false

/-- `ECPoint.__eq__`: all four attributes compare equal. -/
def ECPoint.eq (p q : ECPoint) : Bool :=
  optFeq p.x q.x && optFeq p.y q.y && p.a.feq (.fe q.a) && p.b.feq (.fe q.b)

/-- `ECPoint.__init__`: when both coordinates are present, raise `ValueError`
unless `y**2 == x**3 + a * x + b`; the infinity point `(None, None)` (and a
half-`None` pair) passes through unchecked. -/
def mkECPoint (x y : Option FinFieldElem) (a b : FinFieldElem) :
    Except PyExc ECPoint :=
  match x, y with
  | some xv, some yv => do
    let ax ← a.mul xv
    let rhs0 ← (xv.pow 3).add ax
    let rhs ← rhs0.add b
    if (yv.pow 2).fne (.fe rhs) then .error .valueErr
    else .ok ⟨x, y, a, b⟩
  | _, _ => .ok ⟨x, y, a, b⟩

/-- `ECPoint.__add__`.  Mirrors the source case split: curve mismatch raises
`TypeError`; an infinity operand returns the other point; equal points use
the tangent rule (or return infinity when `y == 0 * x`); equal `x` returns
infinity; otherwise the chord rule.  The constructed sum goes through
`mkECPoint` because the source calls `self.__class__(x, y, a, b)`, which
re-validates.  Arithmetic reaching a `None` coordinate outside the infinity
cases raises `TypeError` in CPython. -/
def ECPoint.add (p q : ECPoint) : Except PyExc ECPoint :=
  if p.a.fne (.fe q.a) || p.b.fne (.fe q.b) then .error .typeErr
  else if p.x = none then .ok q
  else if q.x = none then .ok p
  else if p.eq q then
    match p.x, p.y with
    | some px, some py =>
      if py.feq (.fe (px.rmul 0)) then .ok ⟨none, none, p.a, p.b⟩
      else do
        let num ← (px.pow 2).rmul 3 |>.add p.a
        let slope ← num.truediv (py.rmul 2)
        let x3 ← (slope.pow 2).sub (px.rmul 2)
        let d ← px.sub x3
        let sd ← slope.mul d
        let y3 ← sd.sub py
        mkECPoint (some x3) (some y3) p.a p.b
    | _, _ => .error .typeErr
  else if optFeq p.x q.x then .ok ⟨none, none, p.a, p.b⟩
  else
    match p.x, p.y, q.x, q.y with
    | some px, some py, some qx, some qy => do
      let dy ← qy.sub py
      let dx ← qx.sub px
      let slope ← dy.truediv dx
      let x3a ← (slope.pow 2).sub px
      let x3 ← x3a.sub qx
      let d ← px.sub x3
      let sd ← slope.mul d
      let y3 ← sd.sub py
      mkECPoint (some x3) (some y3) p.a p.b
    | _, _, _, _ => .error .typeErr

/-- The loop of `ECPoint.__rmul__` (binary double-and-add):
`while coef > 0: if coef & 1: product += doubling; doubling += doubling;
coef >>= 1`. -/
def ECPoint.rmulLoop (doubling product : ECPoint) (coef : Nat) :
    Except PyExc ECPoint :=
  if coef = 0 then .ok product
  else do
    let product ← if coef &&& 1 ≠ 0 then product.add doubling else pure product
    let doubling ← doubling.add doubling
    ECPoint.rmulLoop doubling product (coef >>> 1)
decreasing_by
  simp only [Nat.shiftRight_succ, Nat.shiftRight_zero]
  exact Nat.div_lt_self (Nat.pos_of_ne_zero (by assumption)) (by omega)

/-- `ECPoint.__rmul__`: the accumulator starts at `self.__class__(None, None,
a, b)`; the `while coef > 0` loop only runs for a positive coefficient, so an
`Int` coefficient enters the `Nat` loop through `Int.toNat`. -/
def ECPoint.rmul (p : ECPoint) (coefficient : Int) : Except PyExc ECPoint :=
  ECPoint.rmulLoop p ⟨none, none, p.a, p.b⟩ coefficient.toNat

/-! ## `ecc.py`: secp256k1 profile -/

/-- `SECP256K1.P`, the prime of the secp256k1 base field. -/
def S256P : Nat := 2 ^ 256 - 2 ^ 32 - 977

/-- `SECP256K1.N`, the order of the secp256k1 group. -/
def S256N : Nat :=
  0xfffffffffffffffffffffffffffffffebaaedce6af48a03bbfd25e8cd0364141

/-- `S256Point.__rmul__`: pre-reduce the coefficient mod `N`
(`coef = coefficient % self.N`), then run the generic double-and-add loop
`super().__rmul__(coef)`. -/
def S256Point.rmul (p : ECPoint) (coefficient : Int) : Except PyExc ECPoint :=
  ECPoint.rmul p (coefficient % (S256N : Int))

/-! ## `op.py`: Script number encoding -/

/-- `encode_num` of `op.py`: 0 encodes as the empty byte string; otherwise
the little-endian digits of `abs(num)`, then the sign handling on the most
significant byte (`result[-1]`): if its high bit is set, append `0x80`
(negative) or `0x00` (positive); else if negative, set the high bit. -/
def encode_num (num : Int) : Bytes :=
  if num = 0 then []
  else
    let result := natLE num.natAbs
    let msb := result.getLastD 0
    if msb &&& 0x80 ≠ 0 then
      result ++ [if num < 0 then 0x80 else 0x00]
    else if num < 0 then
      result.dropLast ++ [msb ||| 0x80]
    else result

/-- `decode_num` of `op.py`: the empty byte string decodes to 0; otherwise
reverse to big-endian, read the sign off the high bit of the first byte
(masking it away with `& 0x7f` when set), and fold the remaining bytes in
with `result <<= 8; result += c`. -/
def decode_num (element : Bytes) : Int :=
  if element = [] then 0
  else
    let bigEndian := element.reverse
    let b0 := bigEndian.headD 0
    let r0 : Nat := if b0 &&& 0x80 ≠ 0 then b0 &&& 0x7f else b0
    let r : Nat := bigEndian.tail.foldl (fun acc c => acc * 256 + c) r0
    if b0 &&& 0x80 ≠ 0 then -(r : Int) else (r : Int)

/-! ## `helper.py`: varints -/

/-- `encode_varint` of `helper.py`: single byte below `0xfd`, else a one-byte
marker followed by the value in 2, 4 or 8 little-endian bytes; values of 64
bits or more raise `ValueError`.  (The `i < 0` check is vacuous here since
the argument is a `Nat`.) -/
def encode_varint (i : Nat) : Except PyExc Bytes :=
  if i < 0xfd then .ok [i]
  else if i < 0x10000 then .ok (0xfd :: toBytesLE 2 i)
  else if i < 0x100000000 then .ok (0xfe :: toBytesLE 4 i)
  else if i < 0x10000000000000000 then .ok (0xff :: toBytesLE 8 i)
  else .error .valueErr

/-- `read_varint` of `helper.py`, on a stream modelled as the list of bytes
not yet consumed; returns the value and the rest of the stream.  Reading the
first byte of an empty stream is Python `s.read(1)[0]`, an `IndexError`. -/
def read_varint (s : Bytes) : Except PyExc (Nat × Bytes) :=
  match s with
  | [] => .error .indexErr
  | i :: rest =>
    if i = 0xfd then .ok (valLE (rest.take 2), rest.drop 2)
    else if i = 0xfe then .ok (valLE (rest.take 4), rest.drop 4)
    else if i = 0xff then .ok (valLE (rest.take 8), rest.drop 8)
    else .ok (i, rest)

/-! ## `script.py`: the Script container -/

/-- One Script command: an integer opcode or a raw byte slice (push element),
exactly the two runtime types (`int` vs `bytes`) distinguished by the
source. -/
inductive Cmd where
  | opcode (n : Nat)
  | elem (bs : Bytes)
deriving DecidableEq, Repr

/-- The class `Script` of `script.py`: an ordered command list. -/
structure Script where
  cmds : List Cmd
deriving DecidableEq, Repr

/-- Serialization of a single command, as in the body of `Script.serialize`:
an opcode is one byte (`cmd.to_bytes(1, "little")` raises `OverflowError`
for values of 256 or more); an element is preceded by its length byte
(lengths up to 75), by `76` (`OP_PUSHDATA1`) and a one-byte length, or by
`77` (`OP_PUSHDATA2`) and a two-byte little-endian length; longer elements
raise `ValueError`. -/
def serializeCmd (cmd : Cmd) : Except PyExc Bytes :=
  match cmd with
  | .opcode n => if n < 256 then .ok [n] else .error .overflowErr
  | .elem bs =>
    let length := bs.length
    if length ≤ 75 then .ok (length :: bs)
    else if length < 256 then .ok (76 :: length :: bs)
    else if length ≤ 520 then .ok (77 :: toBytesLE 2 length ++ bs)
    else .error .valueErr

/-- The `for cmd in self.cmds` loop of `Script.serialize`, concatenating the
per-command serializations in order. -/
def serializeCmds (cmds : List Cmd) : Except PyExc Bytes :=
  match cmds with
  | [] => .ok []
  | c :: cs => do
    let b ← serializeCmd c
    let rest ← serializeCmds cs
    .ok (b ++ rest)

/-- `Script.serialize`: the serialized command list prefixed by its byte
length as a varint. -/
def Script.serialize (s : Script) : Except PyExc Bytes := do
  let result ← serializeCmds s.cmds
  let hdr ← encode_varint result.length
  .ok (hdr ++ result)

/-- The `while byte_ct < length` loop of `Script.deserialize`, on a stream
modelled as the list of unread bytes.  Bytes 1 to 75 read that many bytes as
an element; byte 76 (`OP_PUSHDATA1`) reads a one-byte length and then that
many bytes; byte 77 (`OP_PUSHDATA2`) reads a two-byte little-endian length;
every other byte is appended as an opcode.  `s.read(k)` returns the first
`k` unread bytes (fewer at the end of the stream, as in Python);
`s.read(1)[0]` on an exhausted stream raises `IndexError`.  After the loop,
`byte_ct != length` raises `SyntaxError`. -/
def deserializeLoop (s : Bytes) (byteCt length : Nat) :
    Except PyExc (List Cmd) :=
  if _h : byteCt < length then
    match s with
    | [] => .error .indexErr
    | currentByte :: rest =>
      if 1 ≤ currentByte ∧ currentByte ≤ 75 then do
        let n := currentByte
        let cmds ← deserializeLoop (rest.drop n) (byteCt + 1 + n) length
        .ok (.elem (rest.take n) :: cmds)
      else if currentByte = 76 then do
        let dataLength := valLE (rest.take 1)
        let cmds ← deserializeLoop ((rest.drop 1).drop dataLength)
          (byteCt + 1 + dataLength + 1) length
        .ok (.elem ((rest.drop 1).take dataLength) :: cmds)
      else if currentByte = 77 then do
        let dataLength := valLE (rest.take 2)
        let cmds ← deserializeLoop ((rest.drop 2).drop dataLength)
          (byteCt + 1 + dataLength + 2) length
        .ok (.elem ((rest.drop 2).take dataLength) :: cmds)
      else do
        let cmds ← deserializeLoop rest (byteCt + 1) length
        .ok (.opcode currentByte :: cmds)
  else if byteCt = length then .ok []
  else .error .synErr
termination_by length - byteCt
decreasing_by all_goals omega

/-- `Script.deserialize`: read the total length as a varint, then run the
command-parsing loop. -/
def Script.deserialize (s : Bytes) : Except PyExc Script := do
  let (length, rest) ← read_varint s
  let cmds ← deserializeLoop rest 0 length
  .ok ⟨cmds⟩

/-- Serialization followed by deserialization (the composition the
round-trip claim is about). -/
def Script.roundTrip (s : Script) : Except PyExc Script := do
  Script.deserialize (← s.serialize)

/-- Commands on which the serializer emits a form the parser maps back to
the same command: single-byte opcodes outside the data-carrying range 1-77,
and push elements of 1 to 520 bytes.  (An empty element serializes as the
byte `0x00`, which parses back as opcode 0; opcodes 1-77 serialize as bytes
the parser treats as push prefixes; opcodes of 256 or more fail to
serialize.) -/
def goodCmd (c : Cmd) : Bool :=
  match c with
  | .opcode n => n == 0 || (78 ≤ n && n ≤ 255)
  | .elem bs => 1 ≤ bs.length && bs.length ≤ 520

/-- Byte length of the serialization of one good command (used to bound the
varint header). -/
def encLen (c : Cmd) : Nat :=
  match c with
  | .opcode _ => 1
  | .elem bs =>
    (if bs.length ≤ 75 then 1 else if bs.length < 256 then 2 else 3)
      + bs.length

/-- Total serialized body length of a command list. -/
def encLens (cmds : List Cmd) : Nat := (cmds.map encLen).sum

/-! ## `op.py`: opcode functions

The Script execution stacks hold byte strings; Python `list`/`deque` order
is kept (index 0 first, the top of the stack last).  The helpers below
mirror Python sequence semantics: negative indices count from the end,
out-of-range access raises `IndexError`, `insert` clamps. -/

/-- The Script execution stack: byte strings, top last. -/
abbrev Stack := List Bytes

/-- Normalization of a Python sequence index: negative indices count from
the end; `none` when out of range. -/
def pyIdx (len : Nat) (i : Int) : Option Nat :=
  let j := if i < 0 then i + len else i
  if 0 ≤ j ∧ j < len then some j.toNat else none

/-- Python `l[i]`: `IndexError` when out of range. -/
def pyGet {α} (l : List α) (i : Int) : Except PyExc α :=
  match pyIdx l.length i with
  | some k =>
    match l[k]? with
    | some x => .ok x
    | none => .error .indexErr
  | none => .error .indexErr

/-- Python `l.pop(i)`: removes and returns `l[i]`; `IndexError` when out of
range. -/
def pyPopAt {α} (l : List α) (i : Int) : Except PyExc (α × List α) :=
  match pyIdx l.length i with
  | some k =>
    match l[k]? with
    | some x => .ok (x, l.take k ++ l.drop (k + 1))
    | none => .error .indexErr
  | none => .error .indexErr

/-- Python `l.pop()` (no argument): pop the last element. -/
def pyPop {α} (l : List α) : Except PyExc (α × List α) := pyPopAt l (-1)

/-- Python `l.insert(i, x)`: index clamped into range, never raises. -/
def pyInsert {α} (l : List α) (i : Int) (x : α) : List α :=
  let j := if i < 0 then i + l.length else i
  let k := (max 0 (min j l.length)).toNat
  l.take k ++ x :: l.drop k

/-- `op_0`: pushes the empty byte array (`encode_num(0)`). -/
def op_0 (stack : Stack) : Except PyExc (Bool × Stack) :=
  .ok (true, stack ++ [encode_num 0])

/-- `op_1negate`: pushes -1. -/
def op_1negate (stack : Stack) : Except PyExc (Bool × Stack) :=
  .ok (true, stack ++ [encode_num (-1)])

/-- `op_1`: pushes 1. -/
def op_1 (stack : Stack) : Except PyExc (Bool × Stack) :=
  .ok (true, stack ++ [encode_num 1])

/-- `op_2`: pushes 2. -/
def op_2 (stack : Stack) : Except PyExc (Bool × Stack) :=
  .ok (true, stack ++ [encode_num 2])

/-- `op_3`: pushes 3. -/
def op_3 (stack : Stack) : Except PyExc (Bool × Stack) :=
  .ok (true, stack ++ [encode_num 3])

/-- `op_4`: pushes 4. -/
def op_4 (stack : Stack) : Except PyExc (Bool × Stack) :=
  .ok (true, stack ++ [encode_num 4])

/-- `op_5`: pushes 5. -/
def op_5 (stack : Stack) : Except PyExc (Bool × Stack) :=
  .ok (true, stack ++ [encode_num 5])

/-- `op_6`: pushes 6. -/
def op_6 (stack : Stack) : Except PyExc (Bool × Stack) :=
  .ok (true, stack ++ [encode_num 6])

/-- `op_7`: pushes 7. -/
def op_7 (stack : Stack) : Except PyExc (Bool × Stack) :=
  .ok (true, stack ++ [encode_num 7])

/-- `op_8`: pushes 8. -/
def op_8 (stack : Stack) : Except PyExc (Bool × Stack) :=
  .ok (true, stack ++ [encode_num 8])

/-- `op_9`: pushes 9. -/
def op_9 (stack : Stack) : Except PyExc (Bool × Stack) :=
  .ok (true, stack ++ [encode_num 9])

/-- `op_10`: pushes 10. -/
def op_10 (stack : Stack) : Except PyExc (Bool × Stack) :=
  .ok (true, stack ++ [encode_num 10])

/-- `op_11`: pushes 11. -/
def op_11 (stack : Stack) : Except PyExc (Bool × Stack) :=
  .ok (true, stack ++ [encode_num 11])

/-- `op_12`: pushes 12. -/
def op_12 (stack : Stack) : Except PyExc (Bool × Stack) :=
  .ok (true, stack ++ [encode_num 12])

/-- `op_13`: pushes 13. -/
def op_13 (stack : Stack) : Except PyExc (Bool × Stack) :=
  .ok (true, stack ++ [encode_num 13])

/-- `op_14`: pushes 14. -/
def op_14 (stack : Stack) : Except PyExc (Bool × Stack) :=
  .ok (true, stack ++ [encode_num 14])

/-- `op_15`: pushes 15. -/
def op_15 (stack : Stack) : Except PyExc (Bool × Stack) :=
  .ok (true, stack ++ [encode_num 15])

/-- `op_16`: pushes 16. -/
def op_16 (stack : Stack) : Except PyExc (Bool × Stack) :=
  .ok (true, stack ++ [encode_num 16])

/-- `op_nop`: does nothing. -/
def op_nop (stack : Stack) : Except PyExc (Bool × Stack) :=
  .ok (true, stack)

/-- Appending an item to the branch currently being collected by the
`op_if` scanning loop (`current_array.append(item)`). -/
def ifPush (curTrue : Bool) (t f : List Cmd) (item : Cmd) :
    List Cmd × List Cmd :=
  if curTrue then (t ++ [item], f) else (t, f ++ [item])

/-- The `while len(items) > 0` scanning loop of `op_if`: split the commands
up to the matching `OP_ENDIF` (104) into the true branch and the false
branch (`OP_ELSE` = 103 at depth 1 switches), tracking nesting for further
`OP_IF`/`OP_NOTIF` (99/100).  Returns `none` when no matching `OP_ENDIF` is
found (the loop then consumed all items). -/
def ifLoop (items : List Cmd) (t f : List Cmd) (curTrue : Bool)
    (numEndifs : Nat) : Option (List Cmd × List Cmd × List Cmd) :=
  match items with
  | [] => none
  | item :: rest =>
    if item = .opcode 99 ∨ item = .opcode 100 then
      ifLoop rest (ifPush curTrue t f item).1 (ifPush curTrue t f item).2
        curTrue (numEndifs + 1)
    else if numEndifs = 1 ∧ item = .opcode 103 then
      ifLoop rest t f false numEndifs
    else if item = .opcode 104 then
      if numEndifs = 1 then some (t, f, rest)
      else
        ifLoop rest (ifPush curTrue t f item).1 (ifPush curTrue t f item).2
          curTrue (numEndifs - 1)
    else
      ifLoop rest (ifPush curTrue t f item).1 (ifPush curTrue t f item).2
        curTrue numEndifs

/-- `op_if` (and, with `notif = true`, `op_notif`): underflow returns
`False`; a missing `OP_ENDIF` returns `False` (with the command list
consumed); otherwise pop the condition and prepend the selected branch to
the remaining commands. -/
def opIf (stack : Stack) (items : List Cmd) (notif : Bool) :
    Except PyExc (Bool × Stack × List Cmd) :=
  if stack.length < 1 then .ok (false, stack, items)
  else
    match ifLoop items [] [] true 1 with
    | none => .ok (false, stack, [])
    | some (trueItems, falseItems, rest) => do
      let (element, stack2) ← pyPop stack
      if (decode_num element == 0) == notif then
        .ok (true, stack2, trueItems ++ rest)
      else
        .ok (true, stack2, falseItems ++ rest)

/-- `op_notif`: `op_if` with the condition reversed. -/
def op_notif (stack : Stack) (items : List Cmd) :
    Except PyExc (Bool × Stack × List Cmd) :=
  opIf stack items true

/-- `op_verify`: pop; fail when the popped number is zero. -/
def op_verify (stack : Stack) : Except PyExc (Bool × Stack) :=
  if stack.length < 1 then .ok (false, stack)
  else do
    let (element, stack2) ← pyPop stack
    if decode_num element == 0 then .ok (false, stack2)
    else .ok (true, stack2)

/-- `op_return`: always fails. -/
def op_return (stack : Stack) : Except PyExc (Bool × Stack) :=
  .ok (false, stack)

/-- `op_toaltstack`: move the top of the main stack to the alt stack. -/
def op_toaltstack (stack altstack : Stack) :
    Except PyExc (Bool × Stack × Stack) :=
  if stack.length < 1 then .ok (false, stack, altstack)
  else do
    let (x, stack2) ← pyPop stack
    .ok (true, stack2, altstack ++ [x])

/-- `op_fromaltstack`: move the top of the alt stack to the main stack. -/
def op_fromaltstack (stack altstack : Stack) :
    Except PyExc (Bool × Stack × Stack) :=
  if altstack.length < 1 then .ok (false, stack, altstack)
  else do
    let (x, altstack2) ← pyPop altstack
    .ok (true, stack ++ [x], altstack2)

/-- `op_2drop`: remove the top two items. -/
def op_2drop (stack : Stack) : Except PyExc (Bool × Stack) :=
  if stack.length < 2 then .ok (false, stack)
  else do
    let (_, s1) ← pyPop stack
    let (_, s2) ← pyPop s1
    .ok (true, s2)

/-- `op_2dup`: `stack.extend(stack[-2:])`. -/
def op_2dup (stack : Stack) : Except PyExc (Bool × Stack) :=
  if stack.length < 2 then .ok (false, stack)
  else .ok (true, stack ++ stack.drop (stack.length - 2))

/-- `op_3dup`: `stack.extend(stack[-3:])`. -/
def op_3dup (stack : Stack) : Except PyExc (Bool × Stack) :=
  if stack.length < 3 then .ok (false, stack)
  else .ok (true, stack ++ stack.drop (stack.length - 3))

/-- `op_2over`: `stack.extend(stack[-4:-2])`. -/
def op_2over (stack : Stack) : Except PyExc (Bool × Stack) :=
  if stack.length < 4 then .ok (false, stack)
  else .ok (true, stack ++ (stack.drop (stack.length - 4)).take 2)

/-- `op_2rot`: `stack.extend(stack[-6:-4])` (the source copies rather than
moves). -/
def op_2rot (stack : Stack) : Except PyExc (Bool × Stack) :=
  if stack.length < 6 then .ok (false, stack)
  else .ok (true, stack ++ (stack.drop (stack.length - 6)).take 2)

/-- `op_2swap`: `stack[-4:] = stack[-2:] + stack[-4:-2]`. -/
def op_2swap (stack : Stack) : Except PyExc (Bool × Stack) :=
  if stack.length < 4 then .ok (false, stack)
  else
    .ok (true, stack.take (stack.length - 4) ++ stack.drop (stack.length - 2)
      ++ (stack.drop (stack.length - 4)).take 2)

/-- `op_ifdup`: duplicate the top item when it decodes to a nonzero
number. -/
def op_ifdup (stack : Stack) : Except PyExc (Bool × Stack) :=
  if stack.length < 1 then .ok (false, stack)
  else do
    let top ← pyGet stack (-1)
    if decode_num top != 0 then .ok (true, stack ++ [top])
    else .ok (true, stack)

/-- `op_depth`: push the encoded stack size. -/
def op_depth (stack : Stack) : Except PyExc (Bool × Stack) :=
  .ok (true, stack ++ [encode_num stack.length])

/-- `op_drop`: remove the top item. -/
def op_drop (stack : Stack) : Except PyExc (Bool × Stack) :=
  if stack.length < 1 then .ok (false, stack)
  else do
    let (_, s1) ← pyPop stack
    .ok (true, s1)

/-- `op_dup`: duplicate the top item. -/
def op_dup (stack : Stack) : Except PyExc (Bool × Stack) :=
  if stack.length < 1 then .ok (false, stack)
  else do
    let top ← pyGet stack (-1)
    .ok (true, stack ++ [top])

/-- `op_nip`: `stack[-2:] = stack[-1:]` removes the second-to-top item. -/
def op_nip (stack : Stack) : Except PyExc (Bool × Stack) :=
  if stack.length < 2 then .ok (false, stack)
  else .ok (true, stack.take (stack.length - 2) ++ stack.drop (stack.length - 1))

/-- `op_over`: copy the second-to-top item to the top. -/
def op_over (stack : Stack) : Except PyExc (Bool × Stack) :=
  if stack.length < 2 then .ok (false, stack)
  else do
    let x ← pyGet stack (-2)
    .ok (true, stack ++ [x])

/-- `op_pick`: pop `n`, copy `stack[-n - 1]` to the top. -/
def op_pick (stack : Stack) : Except PyExc (Bool × Stack) :=
  if stack.length < 1 then .ok (false, stack)
  else do
    let (e, s1) ← pyPop stack
    let n := decode_num e
    if (s1.length : Int) < n + 1 then .ok (false, s1)
    else do
      let x ← pyGet s1 (-n - 1)
      .ok (true, s1 ++ [x])

/-- `op_roll`: pop `n`, move `stack[-n - 1]` to the top (no move for
`n == 0`). -/
def op_roll (stack : Stack) : Except PyExc (Bool × Stack) :=
  if stack.length < 1 then .ok (false, stack)
  else do
    let (e, s1) ← pyPop stack
    let n := decode_num e
    if (s1.length : Int) < n + 1 then .ok (false, s1)
    else if n == 0 then .ok (true, s1)
    else do
      let (x, s2) ← pyPopAt s1 (-n - 1)
      .ok (true, s2 ++ [x])

/-- `op_rot`: move the third item from the top to the top. -/
def op_rot (stack : Stack) : Except PyExc (Bool × Stack) :=
  if stack.length < 3 then .ok (false, stack)
  else do
    let (x, s1) ← pyPopAt stack (-3)
    .ok (true, s1 ++ [x])

/-- `op_swap`: swap the top two items. -/
def op_swap (stack : Stack) : Except PyExc (Bool × Stack) :=
  if stack.length < 2 then .ok (false, stack)
  else do
    let (x, s1) ← pyPopAt stack (-2)
    .ok (true, s1 ++ [x])

/-- `op_tuck`: insert a copy of the top item before the second-to-top. -/
def op_tuck (stack : Stack) : Except PyExc (Bool × Stack) :=
  if stack.length < 2 then .ok (false, stack)
  else do
    let top ← pyGet stack (-1)
    .ok (true, pyInsert stack (-2) top)

/-- `op_size`: push the encoded byte length of the top item. -/
def op_size (stack : Stack) : Except PyExc (Bool × Stack) :=
  if stack.length < 1 then .ok (false, stack)
  else do
    let top ← pyGet stack (-1)
    .ok (true, stack ++ [encode_num top.length])

/-- `op_equal`: pop two items, push 1 when the byte strings are equal, else
0. -/
def op_equal (stack : Stack) : Except PyExc (Bool × Stack) :=
  if stack.length < 2 then .ok (false, stack)
  else do
    let (e1, s1) ← pyPop stack
    let (e2, s2) ← pyPop s1
    if e1 == e2 then .ok (true, s2 ++ [encode_num 1])
    else .ok (true, s2 ++ [encode_num 0])

/-- `op_equalverify`: `op_equal(stack) and op_verify(stack)`. -/
def op_equalverify (stack : Stack) : Except PyExc (Bool × Stack) := do
  let (b, s1) ← op_equal stack
  if b then op_verify s1 else .ok (false, s1)

/-- `op_1add`: add 1 to the decoded top item. -/
def op_1add (stack : Stack) : Except PyExc (Bool × Stack) :=
  if stack.length < 1 then .ok (false, stack)
  else do
    let (e, s1) ← pyPop stack
    .ok (true, s1 ++ [encode_num (decode_num e + 1)])

/-- `op_1sub`: subtract 1 from the decoded top item. -/
def op_1sub (stack : Stack) : Except PyExc (Bool × Stack) :=
  if stack.length < 1 then .ok (false, stack)
  else do
    let (e, s1) ← pyPop stack
    .ok (true, s1 ++ [encode_num (decode_num e - 1)])

/-- `op_negate`: negate the decoded top item. -/
def op_negate (stack : Stack) : Except PyExc (Bool × Stack) :=
  if stack.length < 1 then .ok (false, stack)
  else do
    let (e, s1) ← pyPop stack
    .ok (true, s1 ++ [encode_num (-(decode_num e))])

/-- `op_abs`: absolute value of the decoded top item. -/
def op_abs (stack : Stack) : Except PyExc (Bool × Stack) :=
  if stack.length < 1 then .ok (false, stack)
  else do
    let (e, s1) ← pyPop stack
    let n := decode_num e
    if n < 0 then .ok (true, s1 ++ [encode_num (-n)])
    else .ok (true, s1 ++ [encode_num n])

/-- `op_not`: 1 when the decoded top item is 0, else 0. -/
def op_not (stack : Stack) : Except PyExc (Bool × Stack) :=
  if stack.length < 1 then .ok (false, stack)
  else do
    let (e, s1) ← pyPop stack
    if decode_num e == 0 then .ok (true, s1 ++ [encode_num 1])
    else .ok (true, s1 ++ [encode_num 0])

/-- `op_0notequal`: 0 when the decoded top item is 0, else 1. -/
def op_0notequal (stack : Stack) : Except PyExc (Bool × Stack) :=
  if stack.length < 1 then .ok (false, stack)
  else do
    let (e, s1) ← pyPop stack
    if decode_num e == 0 then .ok (true, s1 ++ [encode_num 0])
    else .ok (true, s1 ++ [encode_num 1])

/-- `op_add`: pop two numbers, push their sum. -/
def op_add (stack : Stack) : Except PyExc (Bool × Stack) :=
  if stack.length < 2 then .ok (false, stack)
  else do
    let (e1, s1) ← pyPop stack
    let (e2, s2) ← pyPop s1
    .ok (true, s2 ++ [encode_num (decode_num e1 + decode_num e2)])

/-- `op_sub`: pop two numbers, push the second minus the first. -/
def op_sub (stack : Stack) : Except PyExc (Bool × Stack) :=
  if stack.length < 2 then .ok (false, stack)
  else do
    let (e1, s1) ← pyPop stack
    let (e2, s2) ← pyPop s1
    .ok (true, s2 ++ [encode_num (decode_num e2 - decode_num e1)])

/-- `op_booland`: 1 when both popped numbers are nonzero. -/
def op_booland (stack : Stack) : Except PyExc (Bool × Stack) :=
  if stack.length < 2 then .ok (false, stack)
  else do
    let (e1, s1) ← pyPop stack
    let (e2, s2) ← pyPop s1
    if decode_num e1 ≠ 0 ∧ decode_num e2 ≠ 0 then .ok (true, s2 ++ [encode_num 1])
    else .ok (true, s2 ++ [encode_num 0])

/-- `op_boolor`: 1 when either popped number is nonzero. -/
def op_boolor (stack : Stack) : Except PyExc (Bool × Stack) :=
  if stack.length < 2 then .ok (false, stack)
  else do
    let (e1, s1) ← pyPop stack
    let (e2, s2) ← pyPop s1
    if decode_num e1 ≠ 0 ∨ decode_num e2 ≠ 0 then .ok (true, s2 ++ [encode_num 1])
    else .ok (true, s2 ++ [encode_num 0])

/-- `op_numequal`: 1 when the popped numbers are equal. -/
def op_numequal (stack : Stack) : Except PyExc (Bool × Stack) :=
  if stack.length < 2 then .ok (false, stack)
  else do
    let (e1, s1) ← pyPop stack
    let (e2, s2) ← pyPop s1
    if decode_num e1 == decode_num e2 then .ok (true, s2 ++ [encode_num 1])
    else .ok (true, s2 ++ [encode_num 0])

/-- `op_numequalverify`: `op_numequal(stack) and op_verify(stack)`. -/
def op_numequalverify (stack : Stack) : Except PyExc (Bool × Stack) := do
  let (b, s1) ← op_numequal stack
  if b then op_verify s1 else .ok (false, s1)

/-- `op_numnotequal`: 0 when the popped numbers are equal, else 1. -/
def op_numnotequal (stack : Stack) : Except PyExc (Bool × Stack) :=
  if stack.length < 2 then .ok (false, stack)
  else do
    let (e1, s1) ← pyPop stack
    let (e2, s2) ← pyPop s1
    if decode_num e1 == decode_num e2 then .ok (true, s2 ++ [encode_num 0])
    else .ok (true, s2 ++ [encode_num 1])

/-- `op_lessthan`: 1 when the second popped number is below the first. -/
def op_lessthan (stack : Stack) : Except PyExc (Bool × Stack) :=
  if stack.length < 2 then .ok (false, stack)
  else do
    let (e1, s1) ← pyPop stack
    let (e2, s2) ← pyPop s1
    if decode_num e2 < decode_num e1 then .ok (true, s2 ++ [encode_num 1])
    else .ok (true, s2 ++ [encode_num 0])

/-- `op_greaterthan`: 1 when the second popped number exceeds the first. -/
def op_greaterthan (stack : Stack) : Except PyExc (Bool × Stack) :=
  if stack.length < 2 then .ok (false, stack)
  else do
    let (e1, s1) ← pyPop stack
    let (e2, s2) ← pyPop s1
    if decode_num e2 > decode_num e1 then .ok (true, s2 ++ [encode_num 1])
    else .ok (true, s2 ++ [encode_num 0])

/-- `op_lessthanorequal`: non-strict version of `op_lessthan`. -/
def op_lessthanorequal (stack : Stack) : Except PyExc (Bool × Stack) :=
  if stack.length < 2 then .ok (false, stack)
  else do
    let (e1, s1) ← pyPop stack
    let (e2, s2) ← pyPop s1
    if decode_num e2 ≤ decode_num e1 then .ok (true, s2 ++ [encode_num 1])
    else .ok (true, s2 ++ [encode_num 0])

/-- `op_greaterthanorequal`: non-strict version of `op_greaterthan`. -/
def op_greaterthanorequal (stack : Stack) : Except PyExc (Bool × Stack) :=
  if stack.length < 2 then .ok (false, stack)
  else do
    let (e1, s1) ← pyPop stack
    let (e2, s2) ← pyPop s1
    if decode_num e2 ≥ decode_num e1 then .ok (true, s2 ++ [encode_num 1])
    else .ok (true, s2 ++ [encode_num 0])

/-- `op_min`: push the smaller popped number. -/
def op_min (stack : Stack) : Except PyExc (Bool × Stack) :=
  if stack.length < 2 then .ok (false, stack)
  else do
    let (e1, s1) ← pyPop stack
    let (e2, s2) ← pyPop s1
    if decode_num e1 < decode_num e2 then .ok (true, s2 ++ [encode_num (decode_num e1)])
    else .ok (true, s2 ++ [encode_num (decode_num e2)])

/-- `op_max`: push the larger popped number. -/
def op_max (stack : Stack) : Except PyExc (Bool × Stack) :=
  if stack.length < 2 then .ok (false, stack)
  else do
    let (e1, s1) ← pyPop stack
    let (e2, s2) ← pyPop s1
    if decode_num e1 > decode_num e2 then .ok (true, s2 ++ [encode_num (decode_num e1)])
    else .ok (true, s2 ++ [encode_num (decode_num e2)])

/-- `op_within`: pop maximum, minimum and element; 1 when the element lies
in `[minimum, maximum)`. -/
def op_within (stack : Stack) : Except PyExc (Bool × Stack) :=
  if stack.length < 3 then .ok (false, stack)
  else do
    let (emax, s1) ← pyPop stack
    let (emin, s2) ← pyPop s1
    let (e, s3) ← pyPop s2
    if decode_num emin ≤ decode_num e ∧ decode_num e < decode_num emax then
      .ok (true, s3 ++ [encode_num 1])
    else .ok (true, s3 ++ [encode_num 0])

/-- `op_ripemd160`: pop, push the RIPEMD-160 digest.  The hash primitive
(`hashlib`, external to the repository) is a parameter of the embedding. -/
def op_ripemd160 (ripemd160I : Bytes → Bytes) (stack : Stack) :
    Except PyExc (Bool × Stack) :=
  if stack.length < 1 then .ok (false, stack)
  else do
    let (e, s1) ← pyPop stack
    .ok (true, s1 ++ [ripemd160I e])

/-- `op_sha1`: pop, push the SHA-1 digest (primitive as parameter). -/
def op_sha1 (sha1I : Bytes → Bytes) (stack : Stack) :
    Except PyExc (Bool × Stack) :=
  if stack.length < 1 then .ok (false, stack)
  else do
    let (e, s1) ← pyPop stack
    .ok (true, s1 ++ [sha1I e])

/-- `op_sha256`: pop, push the SHA-256 digest (primitive as parameter). -/
def op_sha256 (sha256I : Bytes → Bytes) (stack : Stack) :
    Except PyExc (Bool × Stack) :=
  if stack.length < 1 then .ok (false, stack)
  else do
    let (e, s1) ← pyPop stack
    .ok (true, s1 ++ [sha256I e])

/-- `op_hash160`: pop, push `ripemd160(sha256(element))` (the `hash160` of
`helper.py`). -/
def op_hash160 (ripemd160I sha256I : Bytes → Bytes) (stack : Stack) :
    Except PyExc (Bool × Stack) :=
  if stack.length < 1 then .ok (false, stack)
  else do
    let (e, s1) ← pyPop stack
    .ok (true, s1 ++ [ripemd160I (sha256I e)])

/-- `op_hash256`: pop, push `sha256(sha256(element))` (the `hash256` of
`helper.py`). -/
def op_hash256 (sha256I : Bytes → Bytes) (stack : Stack) :
    Except PyExc (Bool × Stack) :=
  if stack.length < 1 then .ok (false, stack)
  else do
    let (e, s1) ← pyPop stack
    .ok (true, s1 ++ [sha256I (sha256I e)])

/-- `op_checksig`: underflow returns `False`; otherwise the source pops the
SEC public key and the DER signature (dropping its final hash-type byte) and
then evaluates `S256Point.parse(sec)`.  The name `S256Point` is never
imported into or defined in `op.py` (nor are `Signature` and `LOGGER`), so
CPython raises `NameError` there, and `except (ValueError, SyntaxError)`
does not catch it: the call never reaches the verify-and-push step. -/
def op_checksig (stack : Stack) (z : Int) : Except PyExc (Bool × Stack) :=
  if stack.length < 2 then .ok (false, stack)
  else do
    let (_sec, s1) ← pyPop stack
    let (der0, s2) ← pyPop s1
    let _der := der0.dropLast
    let _ := z
    let _ := s2
    .error .nameErr

/-- `op_checksigverify`: `op_checksig(stack, z) and op_verify(stack)`. -/
def op_checksigverify (stack : Stack) (z : Int) :
    Except PyExc (Bool × Stack) := do
  let (b, s1) ← op_checksig stack z
  if b then op_verify s1 else .ok (false, s1)

/-- `op_checkmultisig`: the body is `raise NotImplementedError`. -/
def op_checkmultisig (stack : Stack) (z : Int) :
    Except PyExc (Bool × Stack) :=
  let _ := stack
  let _ := z
  .error .notImplErr

/-- `op_checkmultisigverify`: `op_checkmultisig(stack, z) and
op_verify(stack)`. -/
def op_checkmultisigverify (stack : Stack) (z : Int) :
    Except PyExc (Bool × Stack) := do
  let (b, s1) ← op_checkmultisig stack z
  if b then op_verify s1 else .ok (false, s1)

/-- `op_checklocktimeverify(stack, locktime, sequence)`: fails on sequence
`0xffffffff`, stack underflow, a negative top item, a top item below
500000000 while the locktime exceeds 500000000 (note: strictly exceeds), or
a locktime below the top item; succeeds otherwise. -/
def op_checklocktimeverify (stack : Stack) (locktime sequence : Int) :
    Except PyExc Bool :=
  if sequence == 0xffffffff then .ok false
  else if stack.length < 1 then .ok false
  else do
    let top ← pyGet stack (-1)
    let element := decode_num top
    if element < 0 then .ok false
    else if element < 500000000 ∧ locktime > 500000000 then .ok false
    else if locktime < element then .ok false
    else .ok true

/-- `op_checksequenceverify(stack, version, sequence)`: the BIP-112 relative
locktime checks.  The transaction fields are unsigned, so the bit tests run
on `Int.toNat` values. -/
def op_checksequenceverify (stack : Stack) (version sequence : Int) :
    Except PyExc Bool :=
  if sequence.toNat &&& (1 <<< 31) = 1 <<< 31 then .ok false
  else if stack.length < 1 then .ok false
  else do
    let top ← pyGet stack (-1)
    let element := decode_num top
    if element < 0 then .ok false
    else
      let e := element.toNat
      if e &&& (1 <<< 31) = 1 <<< 31 then
        if version < 2 then .ok false
        else if sequence.toNat &&& (1 <<< 31) = 1 <<< 31 then .ok false
        else if e &&& (1 <<< 22) ≠ sequence.toNat &&& (1 <<< 22) then .ok false
        else if e &&& 0xffff > sequence.toNat &&& 0xffff then .ok false
        else .ok true
      else .ok true

/-- Appending to a branch adds exactly one command to the two branches
together. -/
def ifPush_length (curTrue : Bool) (t f : List Cmd) (item : Cmd) :
    (ifPush curTrue t f item).1.length + (ifPush curTrue t f item).2.length
      = t.length + f.length + 1 := by
  cases curTrue <;> simp [ifPush] <;> omega

/-- The `op_if` scanning loop consumes at least the matching `OP_ENDIF`:
both branches and the leftover together are shorter than the input (needed
for the termination of the `evaluate` loop). -/
def ifLoop_shrinks : ∀ (items t f : List Cmd) (curTrue : Bool)
    (numEndifs : Nat) (t2 f2 rest : List Cmd),
    ifLoop items t f curTrue numEndifs = some (t2, f2, rest) →
    t2.length + f2.length + rest.length + 1
      ≤ items.length + t.length + f.length := by
  intro items
  induction items with
  | nil => intro t f cur need t2 f2 r h; simp [ifLoop] at h
  | cons item tail ih =>
    intro t f cur need t2 f2 r h
    rw [ifLoop] at h
    have hpush := ifPush_length cur t f item
    split at h
    · have := ih _ _ _ _ _ _ _ h
      simp only [List.length_cons]
      omega
    · split at h
      · have := ih _ _ _ _ _ _ _ h
        simp only [List.length_cons]
        omega
      · split at h
        · split at h
          · injection h with h2
            injection h2 with h3 h4
            injection h4 with h5 h6
            subst h3; subst h5; subst h6
            simp only [List.length_cons]
            omega
          · have := ih _ _ _ _ _ _ _ h
            simp only [List.length_cons]
            omega
        · have := ih _ _ _ _ _ _ _ h
          simp only [List.length_cons]
          omega

/-- Reduction of the `Except` monad bind on a success value. -/
@[simp] def exceptBindOk {ε α β : Type} (a : α) (f : α → Except ε β) :
    (Except.ok a : Except ε α) >>= f = f a := rfl

/-- Reduction of the `Except` monad bind on an error value. -/
@[simp] def exceptBindErr {ε α β : Type} (e : ε) (f : α → Except ε β) :
    (Except.error e : Except ε α) >>= f = .error e := rfl

/-- When `op_if` succeeds with `True`, the rebuilt command list is strictly
shorter than the one passed in (the branch lists come from the consumed
prefix, minus the matching `OP_ENDIF`). -/
def opIf_shrinks {stack : Stack} {items : List Cmd} {notif : Bool}
    {stack2 : Stack} {rest2 : List Cmd}
    (h : opIf stack items notif = .ok (true, stack2, rest2)) :
    rest2.length < items.length := by
  unfold opIf at h
  split at h
  · simp at h
  · cases hloop : ifLoop items [] [] true 1 with
    | none => simp only [hloop] at h; simp at h
    | some tr =>
      obtain ⟨tItems, fItems, rem⟩ := tr
      simp only [hloop] at h
      have hb := ifLoop_shrinks _ _ _ _ _ _ _ _ hloop
      cases hp : pyPop stack with
      | error e =>
        simp only [hp, exceptBindErr] at h
        exact (Except.noConfusion h)
      | ok pr =>
        obtain ⟨el, st2⟩ := pr
        simp only [hp, exceptBindOk] at h
        split at h <;>
        · simp only [Except.ok.injEq, Prod.mk.injEq] at h
          obtain ⟨-, -, h3⟩ := h
          subst h3
          simp only [List.length_append, List.length_nil] at *
          omega

/-! ## `op.py`: the dispatch table, and `script.py`: `Script.evaluate` -/

/-- `OP_CODE_FUNCTIONS` of `op.py`: the partial map from opcode byte to
implementation.  The constructor records the Python arity of the stored
function: `.s` takes the stack alone, `.sc` the stack and the command list,
`.sa` the two stacks, `.sz` the stack and the signature hash, `.lock` the
stack and two transaction fields.  The hash primitives are parameters. -/
inductive OpImpl where
  | s (f : Stack → Except PyExc (Bool × Stack))
  | sc (f : Stack → List Cmd → Except PyExc (Bool × Stack × List Cmd))
  | sa (f : Stack → Stack → Except PyExc (Bool × Stack × Stack))
  | sz (f : Stack → Int → Except PyExc (Bool × Stack))
  | lock (f : Stack → Int → Int → Except PyExc Bool)

/-- The `OP_CODE_FUNCTIONS` dictionary (same keys and values as the
source; absent keys give `none`). -/
def OP_CODE_FUNCTIONS (ripemd160I sha1I sha256I : Bytes → Bytes) (n : Nat) :
    Option OpImpl :=
  match n with
  | 0 => some (.s op_0)
  | 79 => some (.s op_1negate)
  | 81 => some (.s op_1)
  | 82 => some (.s op_2)
  | 83 => some (.s op_3)
  | 84 => some (.s op_4)
  | 85 => some (.s op_5)
  | 86 => some (.s op_6)
  | 87 => some (.s op_7)
  | 88 => some (.s op_8)
  | 89 => some (.s op_9)
  | 90 => some (.s op_10)
  | 91 => some (.s op_11)
  | 92 => some (.s op_12)
  | 93 => some (.s op_13)
  | 94 => some (.s op_14)
  | 95 => some (.s op_15)
  | 96 => some (.s op_16)
  | 97 => some (.s op_nop)
  | 99 => some (.sc (fun stack items => opIf stack items false))
  | 100 => some (.sc op_notif)
  | 105 => some (.s op_verify)
  | 106 => some (.s op_return)
  | 107 => some (.sa op_toaltstack)
  | 108 => some (.sa op_fromaltstack)
  | 109 => some (.s op_2drop)
  | 110 => some (.s op_2dup)
  | 111 => some (.s op_3dup)
  | 112 => some (.s op_2over)
  | 113 => some (.s op_2rot)
  | 114 => some (.s op_2swap)
  | 115 => some (.s op_ifdup)
  | 116 => some (.s op_depth)
  | 117 => some (.s op_drop)
  | 118 => some (.s op_dup)
  | 119 => some (.s op_nip)
  | 120 => some (.s op_over)
  | 121 => some (.s op_pick)
  | 122 => some (.s op_roll)
  | 123 => some (.s op_rot)
  | 124 => some (.s op_swap)
  | 125 => some (.s op_tuck)
  | 130 => some (.s op_size)
  | 135 => some (.s op_equal)
  | 136 => some (.s op_equalverify)
  | 139 => some (.s op_1add)
  | 140 => some (.s op_1sub)
  | 143 => some (.s op_negate)
  | 144 => some (.s op_abs)
  | 145 => some (.s op_not)
  | 146 => some (.s op_0notequal)
  | 147 => some (.s op_add)
  | 148 => some (.s op_sub)
  | 154 => some (.s op_booland)
  | 155 => some (.s op_boolor)
  | 156 => some (.s op_numequal)
  | 157 => some (.s op_numequalverify)
  | 158 => some (.s op_numnotequal)
  | 159 => some (.s op_lessthan)
  | 160 => some (.s op_greaterthan)
  | 161 => some (.s op_lessthanorequal)
  | 162 => some (.s op_greaterthanorequal)
  | 163 => some (.s op_min)
  | 164 => some (.s op_max)
  | 165 => some (.s op_within)
  | 166 => some (.s (op_ripemd160 ripemd160I))
  | 167 => some (.s (op_sha1 sha1I))
  | 168 => some (.s (op_sha256 sha256I))
  | 169 => some (.s (op_hash160 ripemd160I sha256I))
  | 170 => some (.s (op_hash256 sha256I))
  | 172 => some (.sz op_checksig)
  | 173 => some (.sz op_checksigverify)
  | 174 => some (.sz op_checkmultisig)
  | 175 => some (.sz op_checkmultisigverify)
  | 176 => some (.s op_nop)
  | 177 => some (.lock op_checklocktimeverify)
  | 178 => some (.lock op_checksequenceverify)
  | 179 => some (.s op_nop)
  | 180 => some (.s op_nop)
  | 181 => some (.s op_nop)
  | 182 => some (.s op_nop)
  | 183 => some (.s op_nop)
  | 184 => some (.s op_nop)
  | 185 => some (.s op_nop)
  | _ => none

/-- One opcode step of the `Script.evaluate` loop: the dispatch on the
opcode value.  An opcode not in `OP_CODE_FUNCTIONS` reports `False`
(whether or not it has a name, the source logs and returns `False`).
Otherwise the stored function is called with the arguments the dispatch
chooses by opcode value: 99/100 get `(stack, cmds)` (the table entries are
exactly the two `opIf` wrappers, so `opIf` is called directly), 107/108 get
`(stack, altstack)`, 172-175 get `(stack, z)`, and every other opcode gets
`(stack)` alone.  A stored function whose Python arity differs from what
the dispatch passes raises `TypeError`; this is the case for the `.lock`
entries 177 and 178, which take three arguments but are called with the
stack alone.  Returns the opcode result together with the updated stack,
alt stack and command list. -/
def execOpcode (ripemd160I sha1I sha256I : Bytes → Bytes) (z : Int)
    (n : Nat) (stack altstack : Stack) (rest : List Cmd) :
    Except PyExc (Bool × Stack × Stack × List Cmd) :=
  match OP_CODE_FUNCTIONS ripemd160I sha1I sha256I n with
  | none => .ok (false, stack, altstack, rest)
  | some impl =>
    if n = 99 ∨ n = 100 then
      match opIf stack rest (n == 100) with
      | .error e => .error e
      | .ok (b, stack2, rest2) => .ok (b, stack2, altstack, rest2)
    else if n = 107 ∨ n = 108 then
      match impl with
      | .sa f =>
        match f stack altstack with
        | .error e => .error e
        | .ok (b, stack2, altstack2) => .ok (b, stack2, altstack2, rest)
      | _ => .error .typeErr
    else if n = 172 ∨ n = 173 ∨ n = 174 ∨ n = 175 then
      match impl with
      | .sz f =>
        match f stack z with
        | .error e => .error e
        | .ok (b, stack2) => .ok (b, stack2, altstack, rest)
      | _ => .error .typeErr
    else
      match impl with
      | .s f =>
        match f stack with
        | .error e => .error e
        | .ok (b, stack2) => .ok (b, stack2, altstack, rest)
      | _ => .error .typeErr

/-- A successful opcode step never lengthens the remaining command list:
ordinary opcodes leave it unchanged, and a successful `OP_IF`/`OP_NOTIF`
shrinks it (`opIf_shrinks`). -/
def execOpcode_shrinks {ripemd160I sha1I sha256I : Bytes → Bytes} {z : Int}
    {n : Nat} {stack altstack : Stack} {rest : List Cmd}
    {stack2 altstack2 : Stack} {rest2 : List Cmd}
    (h : execOpcode ripemd160I sha1I sha256I z n stack altstack rest
      = .ok (true, stack2, altstack2, rest2)) :
    rest2.length ≤ rest.length := by
  unfold execOpcode at h
  split at h
  · simp only [Except.ok.injEq, Prod.mk.injEq] at h
    obtain ⟨-, -, -, hr⟩ := h
    exact hr ▸ Nat.le_refl _
  · split at h
    · split at h
      · exact Except.noConfusion h
      · rename_i b st2 r2 hop
        simp only [Except.ok.injEq, Prod.mk.injEq] at h
        obtain ⟨hb, -, -, hr⟩ := h
        subst hb
        subst hr
        exact Nat.le_of_lt (opIf_shrinks hop)
    · split at h
      · split at h <;>
          first
          | exact Except.noConfusion h
          | (split at h
             · exact Except.noConfusion h
             · simp only [Except.ok.injEq, Prod.mk.injEq] at h
               obtain ⟨-, -, -, hr⟩ := h
               exact hr ▸ Nat.le_refl _)
      · split at h
        · split at h <;>
            first
            | exact Except.noConfusion h
            | (split at h
               · exact Except.noConfusion h
               · simp only [Except.ok.injEq, Prod.mk.injEq] at h
                 obtain ⟨-, -, -, hr⟩ := h
                 exact hr ▸ Nat.le_refl _)
        · split at h <;>
            first
            | exact Except.noConfusion h
            | (split at h
               · exact Except.noConfusion h
               · simp only [Except.ok.injEq, Prod.mk.injEq] at h
                 obtain ⟨-, -, -, hr⟩ := h
                 exact hr ▸ Nat.le_refl _)

/-- The `while len(cmds) > 0` loop of `Script.evaluate` (lines after the
copy `cmds = self.cmds[:]`), together with the final stack check, given the
command list and the two stacks.  Commands execute first to last; a
byte-slice command is pushed onto the stack; an integer command goes
through the `execOpcode` dispatch, whose `False` makes the script invalid
and whose exception propagates.  After the loop the script is valid iff the
stack is non-empty and its popped top is not the empty byte string.  (In
the source as written this loop is unreachable: the copy on its first line
already raises, see `Script.evaluate`.) -/
def evalLoop (ripemd160I sha1I sha256I : Bytes → Bytes) (z : Int)
    (cmds : List Cmd) (stack altstack : Stack) : Except PyExc Bool :=
  match cmds with
  | [] =>
    match stack.getLast? with
    | none => .ok false
    | some top => if top = [] then .ok false else .ok true
  | cmd :: rest =>
    match cmd with
    | .elem bs =>
      evalLoop ripemd160I sha1I sha256I z rest (stack ++ [bs]) altstack
    | .opcode n =>
      match _hex : execOpcode ripemd160I sha1I sha256I z n stack altstack rest with
      | .error e => .error e
      | .ok (false, _, _, _) => .ok false
      | .ok (true, stack2, altstack2, rest2) =>
        evalLoop ripemd160I sha1I sha256I z rest2 stack2 altstack2
termination_by cmds.length
decreasing_by
  · simp only [List.length_cons]; omega
  · have := execOpcode_shrinks _hex
    simp only [List.length_cons]; omega

/-- `Script.evaluate`: its first statement is the copy
`cmds = self.cmds[:]`.  `self.cmds` is the `deque` the class documents and
constructs (the `__init__` default is `deque()` and `deserialize` builds a
`deque`), and a CPython deque does not support slicing, so this statement
raises `TypeError` unconditionally, before any command is dispatched.
(Were `cmds` a list instead, the later `cmds.popleft()` would raise
`AttributeError`.)  The command loop that would follow is embedded
separately as `evalLoop`. -/
def Script.evaluate (ripemd160I sha1I sha256I : Bytes → Bytes)
    (script : Script) (z : Int) : Except PyExc Bool :=
  let _ := ripemd160I
  let _ := sha1I
  let _ := sha256I
  let _ := script
  let _ := z
  .error .typeErr

/-! ## Theorems

Supporting lemmas first, then one theorem per specification claim (with a
witness where the theorem carries hypotheses). -/

/-- Popping the last element succeeds on a stack of positive length and
shortens it by one. -/
theorem pyPop_of_length {α} (l : List α) (h : 1 ≤ l.length) :
    ∃ x t, pyPop l = .ok (x, t) ∧ t.length = l.length - 1 := by
  unfold pyPop pyPopAt pyIdx
  have h0 : (-1 : Int) < 0 := by omega
  have h1 : (0 : Int) ≤ -1 + l.length := by omega
  have h2 : (-1 : Int) + l.length < l.length := by omega
  rw [if_pos h0, if_pos ⟨h1, h2⟩]
  have hk : ((-1 : Int) + l.length).toNat = l.length - 1 := by omega
  rw [hk]
  have hlt : l.length - 1 < l.length := by omega
  refine ⟨l.get ⟨l.length - 1, hlt⟩,
    l.take (l.length - 1) ++ l.drop (l.length - 1 + 1), ?_, ?_⟩
  · simp [List.getElem?_eq_getElem hlt, List.get_eq_getElem]
  · rw [List.drop_eq_nil_of_le (by omega), List.length_append,
      List.length_take]
    simp

/-- Claim C3: scalar multiplication on a secp256k1 point satisfies
`(k mod n) * P = k * P` for every integer `k` (including negative and
oversized ones) and every point: `S256Point.__rmul__` pre-reduces the
coefficient mod the group order before running double-and-add, and the
reduction is idempotent. -/
theorem s256_rmul_mod_n (p : ECPoint) (k : Int) :
    S256Point.rmul p (k % (S256N : Int)) = S256Point.rmul p k := by
  unfold S256Point.rmul
  rw [Int.emod_emod_of_dvd _ dvd_rfl]

/-- Claim C8: `FinFieldElem.__pow__` keeps the prime, returns exactly
`num ^ (k mod (p - 1)) mod p`, stays inside `[0, p)`, and at exponent `-1`
produces the modular inverse of a nonzero element (for a prime modulus). -/
theorem finfield_pow_spec (a : FinFieldElem) (k : Int) (hwf : a.Wf)
    (hp : a.prime.Prime) :
    (a.pow k).prime = a.prime ∧
    (a.pow k).num = a.num ^ ((k % ((a.prime : Int) - 1)).toNat) % a.prime ∧
    (a.pow k).num < a.prime ∧
    (a.num ≠ 0 → (a.pow (-1)).num * a.num % a.prime = 1) := by
  obtain ⟨h3, hlt⟩ := hwf
  refine ⟨rfl, rfl, Nat.mod_lt _ (by omega), ?_⟩
  intro hne
  have hq : (2 : Int) ≤ (a.prime : Int) - 1 := by
    have : (3 : Int) ≤ (a.prime : Int) := by exact_mod_cast h3
    omega
  have hmod : ((-1 : Int) % ((a.prime : Int) - 1)).toNat = a.prime - 2 := by
    conv_lhs =>
      rw [show (-1 : Int) = (((a.prime : Int) - 1) - 1)
            + ((a.prime : Int) - 1) * (-1) from by ring]
    rw [Int.add_mul_emod_self_left,
      Int.emod_eq_of_lt (by omega) (by omega)]
    omega
  show a.num ^ ((-1 % ((a.prime : Int) - 1)).toNat) % a.prime * a.num
      % a.prime = 1
  rw [hmod]
  have hco : a.num.Coprime a.prime := by
    have hnd : ¬ a.prime ∣ a.num := Nat.not_dvd_of_pos_of_lt
      (Nat.pos_of_ne_zero hne) hlt
    exact (hp.coprime_iff_not_dvd.mpr hnd).symm
  have hferm : a.num ^ (a.prime - 1) ≡ 1 [MOD a.prime] := by
    have := Nat.ModEq.pow_totient hco
    rwa [Nat.totient_prime hp] at this
  have hstep : a.num ^ (a.prime - 2) % a.prime * a.num
      ≡ a.num ^ (a.prime - 1) [MOD a.prime] := by
    calc a.num ^ (a.prime - 2) % a.prime * a.num
        ≡ a.num ^ (a.prime - 2) * a.num [MOD a.prime] :=
          (Nat.mod_modEq _ _).mul_right _
      _ = a.num ^ (a.prime - 2 + 1) := by rw [pow_succ]
      _ = a.num ^ (a.prime - 1) := by congr 1; omega
  have := hstep.trans hferm
  have hfin : a.num ^ (a.prime - 2) % a.prime * a.num % a.prime
      = 1 % a.prime := this
  exact hfin.trans (Nat.mod_eq_of_lt (by omega))

/-- Witness for C8 at the concrete element 2 of the field of order 5 and
exponent `-1`: the hypotheses hold and the result is the inverse 3. -/
theorem finfield_pow_spec_witness :
    (FinFieldElem.mk 2 5).Wf ∧ Nat.Prime 5 ∧
    ((FinFieldElem.mk 2 5).pow (-1)).num * (FinFieldElem.mk 2 5).num % 5
      = 1 :=
  ⟨by decide, by decide,
    (finfield_pow_spec (FinFieldElem.mk 2 5) (-1) (by decide)
      (by decide)).2.2.2 (by decide)⟩

/-- Claim C9: combining field elements of different primes through add,
sub, mul or truediv raises the domain-mismatch `TypeError` (no value is
returned), while equality comparison never raises: it yields plain
inequality both against an element of a different field and against
non-field values. -/
theorem finfield_domain_mismatch (x y : FinFieldElem) (m : Int) (bs : Bytes)
    (h : x.prime ≠ y.prime) :
    x.add y = .error .typeErr ∧ x.sub y = .error .typeErr ∧
    x.mul y = .error .typeErr ∧ x.truediv y = .error .typeErr ∧
    x.feq (.fe y) = false ∧ x.fne (.fe y) = true ∧
    x.feq (.pyInt m) = false ∧ x.fne (.pyInt m) = true ∧
    x.feq (.pyBytes bs) = false ∧ x.fne (.pyBytes bs) = true := by
  refine ⟨?_, ?_, ?_, ?_, ?_, ?_, rfl, rfl, rfl, rfl⟩ <;>
    simp [FinFieldElem.add, FinFieldElem.sub, FinFieldElem.mul,
      FinFieldElem.truediv, FinFieldElem.feq, FinFieldElem.fne, h]

/-- Witness for C9 at the concrete elements 1 mod 5 and 1 mod 7. -/
theorem finfield_domain_mismatch_witness :
    (FinFieldElem.mk 1 5).add (FinFieldElem.mk 1 7) = .error .typeErr ∧
    (FinFieldElem.mk 1 5).sub (FinFieldElem.mk 1 7) = .error .typeErr ∧
    (FinFieldElem.mk 1 5).mul (FinFieldElem.mk 1 7) = .error .typeErr ∧
    (FinFieldElem.mk 1 5).truediv (FinFieldElem.mk 1 7) = .error .typeErr ∧
    (FinFieldElem.mk 1 5).feq (.fe (FinFieldElem.mk 1 7)) = false ∧
    (FinFieldElem.mk 1 5).fne (.fe (FinFieldElem.mk 1 7)) = true ∧
    (FinFieldElem.mk 1 5).feq (.pyInt 0) = false ∧
    (FinFieldElem.mk 1 5).fne (.pyInt 0) = true ∧
    (FinFieldElem.mk 1 5).feq (.pyBytes []) = false ∧
    (FinFieldElem.mk 1 5).fne (.pyBytes []) = true :=
  finfield_domain_mismatch (FinFieldElem.mk 1 5) (FinFieldElem.mk 1 7) 0 []
    (by decide)

/-- Claim C7 (the code diverges from it): with the stack top encoding
499999999, transaction locktime 500000000 and sequence 0, the source
returns `True` (the BIP-65 type check uses `locktime > 500000000`, which
misses a locktime of exactly 500000000), where the claim expects a
block-height/timestamp threshold mismatch to make it fail; the second
scenario (top 500000000, locktime 500000000) succeeds as claimed. -/
theorem cltv_threshold_behaviour :
    op_checklocktimeverify [encode_num 499999999] 500000000 0 = .ok true ∧
    op_checklocktimeverify [encode_num 500000000] 500000000 0 = .ok true := by
  have h1 : encode_num 499999999 = [255, 100, 205, 29] := by
    have h : natLE (Int.natAbs 499999999) = [255, 100, 205, 29] := by
      rw [show Int.natAbs 499999999 = 499999999 from rfl]
      simp [natLE]
    rw [encode_num, h]
    decide
  have h2 : encode_num 500000000 = [0, 101, 205, 29] := by
    have h : natLE (Int.natAbs 500000000) = [0, 101, 205, 29] := by
      rw [show Int.natAbs 500000000 = 500000000 from rfl]
      simp [natLE]
    rw [encode_num, h]
    decide
  rw [h1, h2]
  constructor <;> decide

/-- Claim C5 (the code diverges from it): whenever the stack holds at least
two elements, `op_checksig` raises `NameError` (the names `S256Point`,
`Signature` and `LOGGER` are not defined in `op.py`), so it never pushes a
0 and never returns `True`, whatever the supplied elements are. -/
theorem op_checksig_raises (stack : Stack) (z : Int)
    (h : 2 ≤ stack.length) :
    op_checksig stack z = .error .nameErr := by
  unfold op_checksig
  rw [if_neg (by omega)]
  obtain ⟨x1, t1, hp1, hl1⟩ := pyPop_of_length stack (by omega)
  obtain ⟨x2, t2, hp2, hl2⟩ := pyPop_of_length t1 (by omega)
  simp [hp1, hp2]

/-- Witness for C5: a two-element stack of invalid SEC/DER byte strings
(two single zero bytes) and signature hash 0. -/
theorem op_checksig_raises_witness :
    op_checksig [[0], [0]] 0 = .error .nameErr :=
  op_checksig_raises [[0], [0]] 0 (by decide)

/-- Claim C4 (the code diverges from it): `Script.evaluate` never returns
a boolean: for every script, signature hash and choice of hash primitives
its first statement (`cmds = self.cmds[:]`, slicing the documented deque)
raises `TypeError` before any command is dispatched.  And the command loop
that follows it (embedded as `evalLoop`), run on a script consisting of the
single opcode `OP_CHECKMULTISIG` (174), would propagate
`NotImplementedError` rather than return the boolean `False`, so the
claimed exception-free behaviour fails on both counts. -/
theorem evaluate_raises_typeerror (ripemd160I sha1I sha256I : Bytes → Bytes)
    (script : Script) (z : Int) :
    Script.evaluate ripemd160I sha1I sha256I script z = .error .typeErr ∧
    evalLoop ripemd160I sha1I sha256I z [Cmd.opcode 174] [] []
      = .error .notImplErr := by
  refine ⟨rfl, ?_⟩
  rw [evalLoop.eq_def]
  rfl

/-! ### Script-number round-trip (C10) -/

/-- The little-endian digit loop recovers its input value. -/
theorem valLE_natLE (m : Nat) : valLE (natLE m) = m := by
  induction m using Nat.strong_induction_on with
  | _ m ih =>
    rw [natLE]
    split
    · subst m; rfl
    · rename_i hm
      have hrec := ih (m / 256)
        (Nat.div_lt_self (Nat.pos_of_ne_zero hm) (by omega))
      simp only [valLE, List.foldr_cons] at *
      omega

/-- Digits produced by the loop are bytes. -/
theorem natLE_lt (m : Nat) : ∀ b ∈ natLE m, b < 256 := by
  induction m using Nat.strong_induction_on with
  | _ m ih =>
    rw [natLE]
    split
    · simp
    · rename_i hm
      intro b hb
      simp only [List.mem_cons] at hb
      rcases hb with rfl | hb
      · exact Nat.mod_lt _ (by omega)
      · exact ih (m / 256)
          (Nat.div_lt_self (Nat.pos_of_ne_zero hm) (by omega)) b hb

/-- A nonzero value has at least one digit. -/
theorem natLE_ne_nil {m : Nat} (hm : m ≠ 0) : natLE m ≠ [] := by
  rw [natLE, if_neg hm]
  simp

/-- Appending a most significant byte adds its weighted value. -/
theorem valLE_append_last (u : Bytes) (x : Nat) :
    valLE (u ++ [x]) = valLE u + x * 256 ^ u.length := by
  induction u with
  | nil => simp [valLE]
  | cons y ys ih =>
    simp only [List.cons_append, valLE, List.foldr_cons,
      List.length_cons] at *
    rw [ih]
    ring

/-- The big-endian fold of `decode_num` over a reversed list, with seed. -/
theorem foldl_be (u : Bytes) (a : Nat) :
    u.reverse.foldl (fun acc c => acc * 256 + c) a
      = valLE u + a * 256 ^ u.length := by
  induction u generalizing a with
  | nil => simp [valLE]
  | cons y ys ih =>
    simp only [List.reverse_cons, List.foldl_append, List.foldl_cons,
      List.foldl_nil, valLE, List.foldr_cons, List.length_cons] at *
    rw [ih]
    ring

/-- Value of `decode_num` on a list with an explicit most significant
byte. -/
theorem decode_append_last (u : Bytes) (c : Nat) :
    decode_num (u ++ [c]) =
      if c &&& 128 ≠ 0 then
        -(((valLE u) + (c &&& 127) * 256 ^ u.length : Nat) : Int)
      else (((valLE u) + c * 256 ^ u.length : Nat) : Int) := by
  simp only [decode_num]
  rw [if_neg (by simp)]
  have hrev : (u ++ [c]).reverse = c :: u.reverse := by simp
  rw [hrev]
  simp only [List.headD_cons, List.tail_cons, foldl_be]
  by_cases hc : c &&& 128 = 0
  · simp [hc]
  · simp [hc]

set_option maxRecDepth 4000 in
/-- All bytes below 128 have a clear high bit, and only they do. -/
theorem land128_zero_iff : ∀ b < 256, (b &&& 128 = 0 ↔ b < 128) := by decide

set_option maxRecDepth 4000 in
/-- Setting the high bit of a small byte, then masking, round-trips. -/
theorem lor128_land : ∀ b < 128,
    (b ||| 128) &&& 128 ≠ 0 ∧ (b ||| 128) &&& 127 = b := by decide

/-- Claim C10: the Script number encoding round-trips: for every integer
(positive, negative or zero, with zero encoded as the empty byte string),
`decode_num (encode_num n) = n`. -/
theorem decode_encode_num (n : Int) : decode_num (encode_num n) = n := by
  by_cases h0 : n = 0
  · subst h0; rfl
  · have hAbs : n.natAbs ≠ 0 := Int.natAbs_ne_zero.mpr h0
    obtain hnil | ⟨u, g, hcat⟩ := (natLE n.natAbs).eq_nil_or_concat
    · exact absurd hnil (natLE_ne_nil hAbs)
    · have hcat2 : natLE n.natAbs = u ++ [g] := by
        rw [hcat, List.concat_eq_append]
      have hval : valLE (u ++ [g]) = n.natAbs := by
        rw [← hcat2, valLE_natLE]
      have hg : g < 256 := by
        apply natLE_lt n.natAbs
        rw [hcat2]
        simp
      have henc : encode_num n =
          if g &&& 128 ≠ 0 then (u ++ [g]) ++ [if n < 0 then 128 else 0]
          else if n < 0 then u ++ [g ||| 128]
          else u ++ [g] := by
        rw [encode_num, if_neg h0, hcat]
        simp only [List.getLastD_concat, List.dropLast_concat,
          List.concat_eq_append]
      rw [henc]
      by_cases hgb : g &&& 128 = 0
      · rw [if_neg (by simp [hgb])]
        by_cases hneg : n < 0
        · rw [if_pos hneg, decode_append_last]
          have hl := lor128_land g ((land128_zero_iff g hg).mp hgb)
          rw [if_pos hl.1, hl.2, ← valLE_append_last, hval]
          omega
        · rw [if_neg hneg, decode_append_last, if_neg (by simp [hgb]),
            ← valLE_append_last, hval]
          omega
      · rw [if_pos hgb]
        by_cases hneg : n < 0
        · rw [if_pos hneg, decode_append_last, if_pos (by decide)]
          rw [show (128 : Nat) &&& 127 = 0 from by decide, Nat.zero_mul,
            Nat.add_zero, hval]
          omega
        · rw [if_neg hneg, decode_append_last,
            if_neg (by decide : ¬((0 : Nat) &&& 128 ≠ 0)), Nat.zero_mul,
            Nat.add_zero, hval]
          omega

/-! ### Script serialization round-trip (C6) -/

/-- Varints below 2^64 encode, and decoding the encoding from the front of
any stream returns the value and the untouched remainder. -/
theorem varint_roundtrip (i : Nat) (h : i < 0x10000000000000000)
    (rest : Bytes) :
    ∃ hdr, encode_varint i = .ok hdr ∧
      read_varint (hdr ++ rest) = .ok (i, rest) := by
  unfold encode_varint read_varint
  by_cases h1 : i < 0xfd
  · rw [if_pos h1]
    refine ⟨[i], rfl, ?_⟩
    simp only [List.singleton_append]
    rw [if_neg (by omega), if_neg (by omega), if_neg (by omega)]
  · rw [if_neg h1]
    by_cases h2 : i < 0x10000
    · rw [if_pos h2]
      refine ⟨_, rfl, ?_⟩
      simp only [toBytesLE, List.cons_append, List.nil_append]
      simp [valLE]
      omega
    · rw [if_neg h2]
      by_cases h3 : i < 0x100000000
      · rw [if_pos h3]
        refine ⟨_, rfl, ?_⟩
        simp only [toBytesLE, List.cons_append, List.nil_append]
        simp [valLE]
        omega
      · rw [if_neg h3, if_pos h]
        refine ⟨_, rfl, ?_⟩
        simp only [toBytesLE, List.cons_append, List.nil_append]
        simp [valLE]
        omega

/-- Every good command serializes, to its predicted byte length. -/
theorem serializeCmd_good (c : Cmd) (hc : goodCmd c = true) :
    ∃ e, serializeCmd c = .ok e ∧ e.length = encLen c := by
  cases c with
  | opcode n =>
    simp only [goodCmd, Bool.or_eq_true, Bool.and_eq_true, beq_iff_eq,
      decide_eq_true_eq] at hc
    refine ⟨[n], ?_, rfl⟩
    simp only [serializeCmd]
    rw [if_pos (by omega)]
  | elem bs =>
    simp only [goodCmd, Bool.and_eq_true, decide_eq_true_eq] at hc
    simp only [serializeCmd, encLen]
    by_cases h75 : bs.length ≤ 75
    · rw [if_pos h75, if_pos h75]
      exact ⟨_, rfl, by simp; omega⟩
    · rw [if_neg h75, if_neg h75]
      by_cases h256 : bs.length < 256
      · rw [if_pos h256, if_pos h256]
        exact ⟨_, rfl, by simp; omega⟩
      · rw [if_neg h256, if_neg h256, if_pos hc.2]
        exact ⟨_, rfl, by simp [toBytesLE]; omega⟩

/-- A list of good commands serializes, to its predicted total length. -/
theorem serializeCmds_good : ∀ (cmds : List Cmd), cmds.all goodCmd = true →
    ∃ body, serializeCmds cmds = .ok body ∧ body.length = encLens cmds := by
  intro cmds
  induction cmds with
  | nil => exact fun _ => ⟨[], rfl, rfl⟩
  | cons c cs ih =>
    intro hall
    simp only [List.all_cons, Bool.and_eq_true] at hall
    obtain ⟨hc, hcs⟩ := hall
    obtain ⟨rest, hrest, hrlen⟩ := ih hcs
    obtain ⟨e, he, helen⟩ := serializeCmd_good c hc
    refine ⟨e ++ rest, ?_, ?_⟩
    · simp only [serializeCmds]
      rw [he, hrest]
      rfl
    · simp only [List.length_append, encLens, List.map_cons, List.sum_cons]
      simp only [encLens] at hrlen
      omega

/-- One-byte read of a stream. -/
theorem take_one_cons {α} (a : α) (t : List α) : (a :: t).take 1 = [a] := rfl

/-- Two-byte read of a stream. -/
theorem take_two_cons {α} (a b : α) (t : List α) :
    (a :: b :: t).take 2 = [a, b] := rfl

/-- Skipping one byte of a stream. -/
theorem drop_one_cons {α} (a : α) (t : List α) : (a :: t).drop 1 = t := rfl

/-- Skipping two bytes of a stream. -/
theorem drop_two_cons {α} (a b : α) (t : List α) :
    (a :: b :: t).drop 2 = t := rfl

/-- Value of a single little-endian byte. -/
theorem valLE_one (a : Nat) : valLE [a] = a := by simp [valLE]

/-- Value of a two-byte little-endian pair. -/
theorem valLE_two (a b : Nat) : valLE [a, b] = a + 256 * b := by
  simp [valLE]

/-- Parsing the serialization of a list of good commands, starting at any
byte count consistent with the total length, recovers the commands. -/
theorem deserializeLoop_round : ∀ (cmds : List Cmd),
    cmds.all goodCmd = true →
    ∀ body, serializeCmds cmds = .ok body →
    ∀ ct L, L = ct + body.length → deserializeLoop body ct L = .ok cmds := by
  intro cmds
  induction cmds with
  | nil =>
    intro _ body hser ct L hL
    simp only [serializeCmds] at hser
    injection hser with hb
    subst hb
    rw [deserializeLoop, dif_neg (by simp at hL; omega),
      if_pos (by simp at hL; omega)]
  | cons c cs ih =>
    intro hall body hser ct L hL
    simp only [List.all_cons, Bool.and_eq_true] at hall
    obtain ⟨hc, hcs⟩ := hall
    simp only [serializeCmds] at hser
    cases hsc : serializeCmd c with
    | error e =>
      rw [hsc] at hser
      simp only [exceptBindErr] at hser
      exact Except.noConfusion hser
    | ok e =>
      rw [hsc] at hser
      simp only [exceptBindOk] at hser
      cases hscs : serializeCmds cs with
      | error e2 =>
        rw [hscs] at hser
        simp only [exceptBindErr] at hser
        exact Except.noConfusion hser
      | ok rest =>
        rw [hscs] at hser
        simp only [exceptBindOk] at hser
        injection hser with hbody
        subst hbody
        have hih : ∀ ct2, L = ct2 + rest.length →
            deserializeLoop rest ct2 L = .ok cs :=
          fun ct2 hct2 => ih hcs rest hscs ct2 L hct2
        cases c with
        | opcode n =>
          simp only [goodCmd, Bool.or_eq_true, Bool.and_eq_true, beq_iff_eq,
            decide_eq_true_eq] at hc
          simp only [serializeCmd] at hsc
          rw [if_pos (by omega)] at hsc
          injection hsc with he
          subst he
          simp only [List.singleton_append] at hL ⊢
          rw [deserializeLoop, dif_pos (by simp at hL; omega)]
          rw [if_neg (by omega), if_neg (by omega), if_neg (by omega)]
          rw [hih (ct + 1) (by simp at hL; omega)]
          rfl
        | elem bs =>
          simp only [goodCmd, Bool.and_eq_true, decide_eq_true_eq] at hc
          simp only [serializeCmd] at hsc
          by_cases h75 : bs.length ≤ 75
          · rw [if_pos h75] at hsc
            injection hsc with he
            subst he
            simp only [List.cons_append, List.append_assoc] at hL ⊢
            rw [deserializeLoop, dif_pos (by simp at hL; omega)]
            rw [if_pos ⟨hc.1, h75⟩]
            simp only [List.take_left, List.drop_left]
            rw [hih (ct + 1 + bs.length) (by simp at hL; omega)]
            rfl
          · rw [if_neg h75] at hsc
            by_cases h256 : bs.length < 256
            · rw [if_pos h256] at hsc
              injection hsc with he
              subst he
              simp only [List.cons_append, List.append_assoc] at hL ⊢
              rw [deserializeLoop, dif_pos (by simp at hL; omega)]
              rw [if_neg (by omega), if_pos rfl]
              simp only [take_one_cons, drop_one_cons, valLE_one,
                List.take_left, List.drop_left]
              rw [hih (ct + 1 + bs.length + 1) (by simp at hL; omega)]
              rfl
            · rw [if_neg h256, if_pos hc.2] at hsc
              injection hsc with he
              subst he
              simp only [toBytesLE, List.cons_append, List.nil_append,
                List.append_assoc] at hL ⊢
              rw [deserializeLoop, dif_pos (by simp at hL; omega)]
              rw [if_neg (by omega), if_neg (by omega), if_pos rfl]
              have hv : bs.length % 256 + 256 * (bs.length / 256 % 256)
                  = bs.length := by omega
              simp only [take_two_cons, drop_two_cons, valLE_two, hv,
                List.take_left, List.drop_left]
              rw [hih (ct + 1 + bs.length + 2) (by simp at hL; omega)]
              rfl


/-- Claim C6 (counterexample): the round-trip is not the identity as
claimed: a Script holding one empty push element (length 0, within the
claim's "at most 520 bytes") serializes to the single byte `0x00`, which
deserializes to the opcode `OP_0`, not to the empty element. -/
theorem script_roundtrip_empty_elem_fails :
    Script.roundTrip (Script.mk [Cmd.elem []]) = .ok (Script.mk [Cmd.opcode 0])
      ∧ Script.roundTrip (Script.mk [Cmd.elem []])
        ≠ .ok (Script.mk [Cmd.elem []]) := by
  have h : Script.roundTrip (Script.mk [Cmd.elem []])
      = .ok (Script.mk [Cmd.opcode 0]) := by
    unfold Script.roundTrip Script.serialize Script.deserialize
    rw [show serializeCmds [Cmd.elem []] = .ok [0] from rfl]
    simp only [exceptBindOk]
    rw [show encode_varint (List.length [(0 : Nat)]) = .ok [1] from rfl]
    simp only [exceptBindOk]
    rw [show read_varint ([1] ++ [0]) = .ok (1, [0]) from rfl]
    simp only [exceptBindOk]
    rw [deserializeLoop, dif_pos (by omega)]
    rw [if_neg (by omega), if_neg (by omega), if_neg (by omega)]
    rw [deserializeLoop, dif_neg (by omega), if_pos rfl]
    rfl
  exact ⟨h, by rw [h]; decide⟩

/-- Claim C6 (amended): for every Script whose integer commands are
single-byte non-push opcodes (0 or 78 to 255) and whose push elements are
1 to 520 bytes long, with a serialized body below 2^64 bytes,
deserializing the serialization returns an equal Script.  (The original
claim fails for empty push elements, see the counterexample; it would also
fail for integer commands in the data-carrying range 1-77 or above 255,
and for bodies too long for a varint.) -/
theorem script_roundtrip (s : Script) (hgood : s.cmds.all goodCmd = true)
    (hbound : encLens s.cmds < 0x10000000000000000) :
    Script.roundTrip s = .ok s := by
  obtain ⟨body, hser, hblen⟩ := serializeCmds_good s.cmds hgood
  obtain ⟨hdr, hv, hr⟩ := varint_roundtrip body.length
    (by rw [hblen]; exact hbound) body
  unfold Script.roundTrip Script.serialize Script.deserialize
  rw [hser]
  simp only [exceptBindOk]
  rw [hv]
  simp only [exceptBindOk]
  rw [hr]
  simp only [exceptBindOk]
  rw [deserializeLoop_round s.cmds hgood body hser 0 body.length (by omega)]
  rfl

set_option maxRecDepth 100000 in
/-- Witness for the amended C6 at a Script exercising all three element
forms (direct push, PUSHDATA1 range, PUSHDATA2 range) and two opcodes. -/
theorem script_roundtrip_witness :
    Script.roundTrip (Script.mk [Cmd.opcode 0, Cmd.elem [171],
      Cmd.opcode 118, Cmd.elem (List.replicate 80 7),
      Cmd.elem (List.replicate 300 9)])
    = .ok (Script.mk [Cmd.opcode 0, Cmd.elem [171],
      Cmd.opcode 118, Cmd.elem (List.replicate 80 7),
      Cmd.elem (List.replicate 300 9)]) :=
  script_roundtrip _ (by decide) (by decide)
